import Mathlib

/-!
Verification of the Node.js prompt-segment module (`src/modules/nodejs.rs`).

The module's own logic (`module`, `get_engines_version`,
`check_engines_version`) is embedded directly from the source.  External
collaborators that are not part of the given sources — the directory
scanner, the string formatter, the `semver`/`regex`/`serde_json`
libraries and the file/process utilities — are modelled from the spec's
description of their interfaces (sections 4.1–4.4), as executable Lean
definitions.  Strings are processed through their character lists so that
every definition evaluates by kernel reduction.
-/

namespace NodejsModule

/-! ## Character-level string utilities -/

/-- ASCII whitespace test used by the trimming model of `str::trim`. -/
def isWhitespaceChar (c : Char) : Bool :=
  c == ' ' || c == '\t' || c == '\n' || c == '\r'

/-- Remove leading and trailing whitespace from a character list. -/
def trimChars (cs : List Char) : List Char :=
  ((cs.dropWhile isWhitespaceChar).reverse.dropWhile isWhitespaceChar).reverse

/-- Modelled from the spec: `str::trim`, whitespace removed from both
ends of the string only. -/
def strTrim (s : String) : String :=
  String.mk (trimChars s.toList)

/-- Numeric value of a digit run (most significant digit first). -/
def natOfDigits (ds : List Char) : Nat :=
  ds.foldl (fun acc c => acc * 10 + (c.toNat - 48)) 0

/-! ## Version (the `semver::Version` values reachable in this module)

`check_engines_version` only ever parses the substring extracted by the
regex `\d+\.\d+\.\d+`, so the relevant fragment of `semver::Version` is a
strict `major.minor.patch` triple of numbers. -/

/-- A parsed three-component semantic version. -/
structure Version where
  major : Nat
  minor : Nat
  patch : Nat
deriving DecidableEq

/-- Parse a character list as exactly `digits '.' digits '.' digits`,
with nothing left over. -/
def parseVersionChars (cs : List Char) : Option Version :=
  let d1 := cs.takeWhile Char.isDigit
  if d1.isEmpty then none else
  match cs.dropWhile Char.isDigit with
  | c1 :: r2 =>
    if c1 == '.' then
      let d2 := r2.takeWhile Char.isDigit
      if d2.isEmpty then none else
      match r2.dropWhile Char.isDigit with
      | c2 :: r4 =>
        if c2 == '.' then
          let d3 := r4.takeWhile Char.isDigit
          if d3.isEmpty then none
          else if (r4.dropWhile Char.isDigit).isEmpty then
            some ⟨natOfDigits d1, natOfDigits d2, natOfDigits d3⟩
          else none
        else none
      | [] => none
    else none
  | [] => none

/-- Modelled from the spec: `semver::Version::parse` restricted to the
strict three-component form the extracted substring can take (§4.3:
"Parse the extracted triple as a strict three-component version"). -/
def Version.parse (s : String) : Option Version :=
  parseVersionChars s.toList

/-! ## The regex `\d+\.\d+\.\d+` -/

/-- Greedy match of `\d+\.\d+\.\d+` anchored at the start of the list;
returns the matched characters.  Greedy maximal-munch is equivalent to
the regex engine's behaviour here because a digit run can only be
followed by the literal `'.'`, which is not a digit. -/
def matchTripleAt (cs : List Char) : Option (List Char) :=
  let d1 := cs.takeWhile Char.isDigit
  if d1.isEmpty then none else
  match cs.dropWhile Char.isDigit with
  | c1 :: r2 =>
    if c1 == '.' then
      let d2 := r2.takeWhile Char.isDigit
      if d2.isEmpty then none else
      match r2.dropWhile Char.isDigit with
      | c2 :: r4 =>
        if c2 == '.' then
          let d3 := r4.takeWhile Char.isDigit
          if d3.isEmpty then none
          else some (d1 ++ '.' :: (d2 ++ '.' :: d3))
        else none
      | [] => none
    else none
  | [] => none

/-- Leftmost match: try each suffix left to right. -/
def findTripleAux : List Char → Option (List Char)
  | [] => none
  | c :: cs =>
    match matchTripleAt (c :: cs) with
    | some m => some m
    | none => findTripleAux cs

/-- Modelled from the spec: the first substring of the version string
matching `\d+\.\d+\.\d+` (§4.3), i.e. `Regex::captures(...).get(0)` for
that pattern. -/
def findTriple (s : String) : Option String :=
  (findTripleAux s.toList).map String.mk

/-! ## VersionReq (the `semver` range grammar)

Modelled from the spec (§4.3): "standard semantic-version range grammar —
comma-separated comparator clauses are AND-ed within one range string;
caret and tilde operators follow conventional compatible-within-same
major/minor shorthand; a bare wildcard or empty string matches
everything."  A comparator is an operator applied to a possibly partial
version; a clause with no operator means "compatible" (caret), the
library's default. -/

/-- Comparator operators of the range grammar. -/
inductive ReqOp where
  | eq
  | gt
  | lt
  | ge
  | le
  | tilde
  | caret
  | wildcard
deriving DecidableEq

/-- One comparator clause: an operator and a possibly partial version. -/
structure Comparator where
  op : ReqOp
  major : Nat
  minor : Option Nat
  patch : Option Nat
deriving DecidableEq

/-- Strip a leading comparator operator; a bare version defaults to
"compatible" (caret). -/
def parseOpChars : List Char → ReqOp × List Char
  | '>' :: '=' :: r => (ReqOp.ge, r)
  | '<' :: '=' :: r => (ReqOp.le, r)
  | '>' :: r => (ReqOp.gt, r)
  | '<' :: r => (ReqOp.lt, r)
  | '=' :: r => (ReqOp.eq, r)
  | '~' :: r => (ReqOp.tilde, r)
  | '^' :: r => (ReqOp.caret, r)
  | r => (ReqOp.caret, r)

/-- Parse one comma-separated clause: optional operator, optional
whitespace, then `*` or a 1–3 component dotted numeric version, with
nothing left over.  Anything else is a syntax error (`none`). -/
def parseComparatorChars (s : List Char) : Option Comparator :=
  let cs := trimChars s
  if cs.isEmpty then none
  else
    let (op, r0) := parseOpChars cs
    let r := r0.dropWhile isWhitespaceChar
    if r == ['*'] then some ⟨ReqOp.wildcard, 0, none, none⟩
    else
      let d1 := r.takeWhile Char.isDigit
      let r1 := r.dropWhile Char.isDigit
      if d1.isEmpty then none else
      match r1 with
      | [] => some ⟨op, natOfDigits d1, none, none⟩
      | '.' :: r2 =>
        let d2 := r2.takeWhile Char.isDigit
        let r3 := r2.dropWhile Char.isDigit
        if d2.isEmpty then none else
        match r3 with
        | [] => some ⟨op, natOfDigits d1, some (natOfDigits d2), none⟩
        | '.' :: r4 =>
          let d3 := r4.takeWhile Char.isDigit
          let r5 := r4.dropWhile Char.isDigit
          if d3.isEmpty then none
          else if r5.isEmpty then
            some ⟨op, natOfDigits d1, some (natOfDigits d2), some (natOfDigits d3)⟩
          else none
        | _ => none
      | _ => none

/-- Split a character list on every comma. -/
def splitOnComma : List Char → List (List Char)
  | [] => [[]]
  | ',' :: r => [] :: splitOnComma r
  | c :: r =>
    match splitOnComma r with
    | [] => [[c]]
    | g :: gs => (c :: g) :: gs

/-- A parsed range expression: the AND-composed comparator clauses. -/
structure VersionReq where
  comparators : List Comparator
deriving DecidableEq

/-- Modelled from the spec: `semver::VersionReq::parse`.  The empty (or
all-whitespace) string parses to the empty comparator set, which matches
everything (§4.3); otherwise every comma-separated clause must parse. -/
def VersionReq.parse (s : String) : Option VersionReq :=
  if (trimChars s.toList).isEmpty then some ⟨[]⟩
  else ((splitOnComma s.toList).mapM parseComparatorChars).map VersionReq.mk

/-- Strict lexicographic order on versions. -/
def Version.ltb (a b : Version) : Bool :=
  Nat.blt a.major b.major ||
    (a.major == b.major &&
      (Nat.blt a.minor b.minor ||
        (a.minor == b.minor && Nat.blt a.patch b.patch)))

/-- Non-strict lexicographic order on versions. -/
def Version.leb (a b : Version) : Bool :=
  Nat.blt a.major b.major ||
    (a.major == b.major &&
      (Nat.blt a.minor b.minor ||
        (a.minor == b.minor && Nat.ble a.patch b.patch)))

/-- Does version `v` satisfy one comparator clause?  Partial versions
are zero-filled for the ordering operators; `=` requires equality on the
components that were given; tilde fixes the major (and given minor);
caret fixes the leftmost nonzero given component. -/
def compMatches (c : Comparator) (v : Version) : Bool :=
  let base : Version := ⟨c.major, c.minor.getD 0, c.patch.getD 0⟩
  match c.op with
  | ReqOp.wildcard => true
  | ReqOp.eq =>
    v.major == c.major &&
      (match c.minor with | some m => v.minor == m | none => true) &&
      (match c.patch with | some p => v.patch == p | none => true)
  | ReqOp.gt => base.ltb v
  | ReqOp.ge => base.leb v
  | ReqOp.lt => v.ltb base
  | ReqOp.le => v.leb base
  | ReqOp.tilde =>
    base.leb v && v.major == c.major &&
      (match c.minor with | some m => v.minor == m | none => true)
  | ReqOp.caret =>
    base.leb v &&
      (if c.major > 0 then v.major == c.major
       else match c.minor with
         | some m =>
           if m > 0 then v.major == 0 && v.minor == m
           else match c.patch with
             | some p => v.major == 0 && v.minor == 0 && v.patch == p
             | none => v.major == 0 && v.minor == 0
         | none => v.major == 0)

/-- Modelled from the spec: `VersionReq::matches` — all AND-composed
clauses must hold. -/
def VersionReq.matches (r : VersionReq) (v : Version) : Bool :=
  r.comparators.all (fun c => compMatches c v)

/-! ## `check_engines_version` (embedded from the source)

The source returns `bool` but can panic: `re.captures(...).unwrap()`
fails when the version string holds no `\d+\.\d+\.\d+` substring.  The
embedding returns `Option Bool`, with `none` standing for that panic and
`some b` for a normal return of `b`. -/

/-- Embedding of `check_engines_version` from `src/modules/nodejs.rs`
lines 83–103, panic represented as `none`. -/
def check_engines_version (nodejs_version : String)
    (engines_version : Option String) : Option Bool :=
  match engines_version with
  | none => some true
  | some ev =>
    match VersionReq.parse ev with
    | none => some true
    | some r =>
      match findTriple nodejs_version with
      | none => none
      | some version =>
        match Version.parse version with
        | none => some true
        | some v => some (r.matches v)

/-! ## JSON values and `get_engines_version`

`serde_json::Value` is modelled as an inductive; the external parser
`serde_json::from_str` and the file reader `utils::read_file` (repository
code outside the given sources, §4.2) are passed in as function
parameters, so the embedding quantifies over their behaviour. -/

/-- Model of `serde_json::Value`. -/
inductive Json where
  | null
  | bool (b : Bool)
  | num (n : Int)
  | str (s : String)
  | arr (elems : List Json)
  | obj (fields : List (String × Json))

/-- `Value::get(key)`: field lookup on an object, `none` on anything
else. -/
def Json.get (j : Json) (key : String) : Option Json :=
  match j with
  | Json.obj fields => (fields.find? (fun p => p.1 == key)).map (fun p => p.2)
  | _ => none

/-- `Value::as_str()`: the string payload of a string value. -/
def Json.as_str (j : Json) : Option String :=
  match j with
  | Json.str s => some s
  | _ => none

/-- Embedding of `get_engines_version` from `src/modules/nodejs.rs`
lines 76–81.  `read_file` models `utils::read_file` (path to contents,
`none` on any I/O error) and `from_str` models `serde_json::from_str`
(`none` on a parse error). -/
def get_engines_version (from_str : String → Option Json)
    (read_file : String → Option String) (base_dir : String) : Option String :=
  match read_file (base_dir ++ "/package.json") with
  | none => none
  | some json_str =>
    match from_str json_str with
    | none => none
    | some package_json =>
      match package_json.get "engines" with
      | none => none
      | some engines =>
        match engines.get "node" with
        | none => none
        | some node => node.as_str

/-! ## The directory scan

The scanner (`try_begin_scan` / `set_files` / `set_extensions` /
`set_folders` / `is_match`) is repository code outside the given
sources; it is modelled from the spec (§4.1, steps 2–4): a match is a
configured file name present, a configured extension on a regular file,
or a configured folder name present, all in the immediate directory
only. -/

/-- The immediate contents of one directory: regular-file names and
subdirectory names. -/
structure Dir where
  files : List String
  folders : List String
deriving DecidableEq

/-- Modelled from the spec: the file suffix "compared without the
leading separator" (§3) — the characters after the last dot, with no
extension for dotless names and for hidden files whose only dot leads. -/
def fileExtension (name : String) : Option String :=
  let rev := name.toList.reverse
  let extRev := rev.takeWhile (fun c => !(c == '.'))
  match rev.dropWhile (fun c => !(c == '.')) with
  | [] => none
  | [_] => none
  | _ => some (String.mk extRev.reverse)

/-- Modelled from the spec: one scan's `is_match` (§4.1 steps 2–4) —
any configured file name, extension, or folder name present directly in
the directory. -/
def scanIsMatch (d : Dir) (fileNames extensions folderNames : List String) : Bool :=
  fileNames.any (fun n => d.files.contains n) ||
    d.files.any (fun f =>
      match fileExtension f with
      | some e => extensions.contains e
      | none => false) ||
    folderNames.any (fun n => d.folders.contains n)

/-- The first scan of `module` (lines 21–26): marker files, extensions
and folders of a JavaScript project. -/
def is_js_project (d : Dir) : Bool :=
  scanIsMatch d ["package.json", ".node-version"] ["js", "mjs", "cjs", "ts"]
    ["node_modules"]

/-- The second scan of `module` (lines 28–31): the `esy.lock` exclusion
folder. -/
def is_esy_project (d : Dir) : Bool :=
  scanIsMatch d [] [] ["esy.lock"]

/-- The composed relevance probe: the module proceeds exactly when
`is_js_project` holds and `is_esy_project` does not (line 33). -/
def nodejs_probe (d : Dir) : Bool :=
  is_js_project d && !(is_esy_project d)

/-! ## The formatter

The string formatter is repository code outside the given sources; it is
modelled from the spec (§4.4): the format template is an ordered
sequence of literal fragments and named placeholders, rendering
concatenates resolved values, and an unrecognized placeholder name fails
the whole render with a format error. -/

/-- One template token: a literal fragment or a named placeholder. -/
inductive FmtToken where
  | lit (text : String)
  | var (name : String)
deriving DecidableEq

/-- The bindings of this module (lines 44–60): `symbol` from the
configuration, `style` chosen by the compatibility flag, `version` the
trimmed runtime version; every other name is unrecognized. -/
def resolveVar (symbol style not_capable_style : String)
    (in_engines_range : Bool) (nodejs_version : String) (name : String) :
    Option String :=
  if name == "symbol" then some symbol
  else if name == "style" then
    some (if in_engines_range then style else not_capable_style)
  else if name == "version" then some (strTrim nodejs_version)
  else none

/-- Modelled from the spec: `render` (§4.4) — concatenate literal
fragments and resolved placeholder values; an unresolved placeholder
name fails the whole render with an error and no partial output. -/
def renderTokens (resolve : String → Option String) :
    List FmtToken → Except String String
  | [] => Except.ok ""
  | FmtToken.lit s :: rest =>
    match renderTokens resolve rest with
    | Except.ok t => Except.ok (s ++ t)
    | Except.error e => Except.error e
  | FmtToken.var n :: rest =>
    match resolve n with
    | some v =>
      match renderTokens resolve rest with
      | Except.ok t => Except.ok (v ++ t)
      | Except.error e => Except.error e
    | none => Except.error ("Unrecognized placeholder: " ++ n)

/-- The presentation options of this module (`NodejsConfig`): format
template, symbol, and the two style tokens. -/
structure NodejsConfig where
  format : List FmtToken
  symbol : String
  style : String
  not_capable_style : String
deriving DecidableEq

/-- The observable outcome of `module`: the source returns
`Option<Module>`, with `None` both for an irrelevant directory / failed
command and for a logged format error; the embedding keeps those two
apart and represents the possible `unwrap` panic explicitly. -/
inductive ModuleResult where
  | panic
  | noSegment
  | formatError (msg : String)
  | rendered (text : String)
deriving DecidableEq

/-- Embedding of `module` from `src/modules/nodejs.rs` lines 20–73.
`from_str`/`read_file` model the JSON parser and file reader as in
`get_engines_version`; `exec_node_version` models
`utils::exec_cmd("node", ["--version"]).stdout` (`none` when the command
fails); `dir` holds the immediate directory entries both scans read and
`current_dir` the path handed to `get_engines_version`.  A scan that
fails to read the directory (`try_begin_scan` returning `None`) also
yields no segment and is subsumed by the `noSegment` branch. -/
def module (from_str : String → Option Json) (read_file : String → Option String)
    (exec_node_version : Option String) (dir : Dir) (current_dir : String)
    (config : NodejsConfig) : ModuleResult :=
  if !(is_js_project dir) || is_esy_project dir then ModuleResult.noSegment
  else
    match exec_node_version with
    | none => ModuleResult.noSegment
    | some nodejs_version =>
      let engines_version := get_engines_version from_str read_file current_dir
      match check_engines_version nodejs_version engines_version with
      | none => ModuleResult.panic
      | some in_engines_range =>
        match renderTokens
            (resolveVar config.symbol config.style config.not_capable_style
              in_engines_range nodejs_version) config.format with
        | Except.ok text => ModuleResult.rendered text
        | Except.error msg => ModuleResult.formatError msg

/-! ## Substring containment (to state "version string embedding the
triple") -/

/-- Does the first list lead the second (character by character)? -/
def leadsWith : List Char → List Char → Bool
  | [], _ => true
  | _ :: _, [] => false
  | a :: as_, b :: bs => a == b && leadsWith as_ bs

/-- Does `needle` occur somewhere inside `hay`? -/
def hasSubstringAux (needle : List Char) : List Char → Bool
  | [] => leadsWith needle []
  | c :: cs => leadsWith needle (c :: cs) || hasSubstringAux needle cs

/-- `needle` occurs as a contiguous substring of `hay`. -/
def hasSubstring (hay needle : String) : Bool :=
  hasSubstringAux needle.toList hay.toList

/-! ## Helper lemmas: every regex-extracted triple parses as a version -/

/-- `takeWhile`/`dropWhile` split an appended list at the first element
of `r` when all of `d` satisfies `p` and the head of `r` (if any) does
not. -/
theorem takeWhile_app {p : Char → Bool} (d r : List Char)
    (hd : ∀ c ∈ d, p c = true) (hr : ∀ c cs, r = c :: cs → p c = false) :
    (d ++ r).takeWhile p = d ∧ (d ++ r).dropWhile p = r := by
  induction d with
  | nil =>
    cases r with
    | nil => simp
    | cons c cs =>
      simp [List.takeWhile_cons, List.dropWhile_cons, hr c cs rfl]
  | cons a d ih =>
    have ha : p a = true := hd a (by simp)
    have h' := ih (fun c hc => hd c (by simp [hc]))
    simp [List.takeWhile_cons, List.dropWhile_cons, ha, h'.1, h'.2]

/-- A dotted triple of nonempty digit runs parses, and its numeric
components are the digit-run values. -/
theorem parseVersion_of_triple (d1 d2 d3 : List Char)
    (h1 : d1 ≠ []) (h2 : d2 ≠ []) (h3 : d3 ≠ [])
    (a1 : ∀ c ∈ d1, c.isDigit = true) (a2 : ∀ c ∈ d2, c.isDigit = true)
    (a3 : ∀ c ∈ d3, c.isDigit = true) :
    parseVersionChars (d1 ++ '.' :: (d2 ++ '.' :: d3)) =
      some ⟨natOfDigits d1, natOfDigits d2, natOfDigits d3⟩ := by
  have hdot : ('.' : Char).isDigit = false := by decide
  have s1 := takeWhile_app d1 ('.' :: (d2 ++ '.' :: d3)) a1
    (fun c cs hc => by cases hc; exact hdot)
  have s2 := takeWhile_app d2 ('.' :: d3) a2
    (fun c cs hc => by cases hc; exact hdot)
  have s3 := takeWhile_app (p := Char.isDigit) d3 [] a3 (fun c cs hc => by cases hc)
  have e1 : d1.isEmpty = false := by
    cases d1 with
    | nil => exact absurd rfl h1
    | cons a l => rfl
  have e2 : d2.isEmpty = false := by
    cases d2 with
    | nil => exact absurd rfl h2
    | cons a l => rfl
  have e3 : d3.isEmpty = false := by
    cases d3 with
    | nil => exact absurd rfl h3
    | cons a l => rfl
  have s3' : d3.takeWhile Char.isDigit = d3 := by
    have := s3.1
    simpa using this
  have s3'' : d3.dropWhile Char.isDigit = [] := by
    have := s3.2
    simpa using this
  simp only [parseVersionChars, s1.1, s1.2, e1, s2.1, s2.2, e2, s3', s3'', e3,
    Bool.false_eq_true, if_false, beq_self_eq_true, if_true, List.isEmpty_nil,
    List.isEmpty_cons]

/-- Every substring matched by the regex `\d+\.\d+\.\d+` parses as a
`Version`. -/
theorem matchTripleAt_version (cs m : List Char) (h : matchTripleAt cs = some m) :
    ∃ v : Version, parseVersionChars m = some v := by
  simp only [matchTripleAt] at h
  split at h
  · exact absurd h (by simp)
  · rename_i hne1
    split at h
    · rename_i c1 r2 heq1
      split at h
      · rename_i hc1
        split at h
        · exact absurd h (by simp)
        · rename_i hne2
          split at h
          · rename_i c2 r4 heq2
            split at h
            · rename_i hc2
              split at h
              · exact absurd h (by simp)
              · rename_i hne3
                cases h
                refine ⟨_, parseVersion_of_triple _ _ _ ?_ ?_ ?_ ?_ ?_ ?_⟩
                · intro hnil
                  simp [hnil] at hne1
                · intro hnil
                  simp [hnil] at hne2
                · intro hnil
                  simp [hnil] at hne3
                · exact fun c hc => List.mem_takeWhile_imp hc
                · exact fun c hc => List.mem_takeWhile_imp hc
                · exact fun c hc => List.mem_takeWhile_imp hc
            · exact absurd h (by simp)
          · exact absurd h (by simp)
      · exact absurd h (by simp)
    · exact absurd h (by simp)

/-- The leftmost regex match also parses as a `Version`. -/
theorem findTripleAux_version (cs m : List Char) (h : findTripleAux cs = some m) :
    ∃ v : Version, parseVersionChars m = some v := by
  induction cs with
  | nil => exact absurd h (by simp [findTripleAux])
  | cons c cs ih =>
    rw [findTripleAux] at h
    cases hm : matchTripleAt (c :: cs) with
    | some m' =>
      rw [hm] at h
      cases h
      exact matchTripleAt_version _ _ hm
    | none =>
      rw [hm] at h
      exact ih h

/-- The string `findTriple` extracts always parses as a `Version`:
`Version::parse` cannot fail on the regex-extracted substring. -/
theorem findTriple_versionOk (s t : String) (h : findTriple s = some t) :
    ∃ v : Version, Version.parse t = some v := by
  unfold findTriple at h
  cases hm : findTripleAux s.toList with
  | none => rw [hm] at h; exact absurd h (by simp)
  | some m =>
    rw [hm] at h
    simp only [Option.map_some'] at h
    obtain ⟨v, hv⟩ := findTripleAux_version _ _ hm
    injection h with h
    subst h
    exact ⟨v, hv⟩

/-! ## Shared helper lemmas about `check_engines_version`, the probe and
the renderer -/

/-- When the constraint parses and the version string yields a triple
that parses, `check_engines_version` returns the range evaluation. -/
theorem check_engines_eval (v c : String) (r : VersionReq) (t : String)
    (ver : Version) (hr : VersionReq.parse c = some r)
    (ht : findTriple v = some t) (hver : Version.parse t = some ver) :
    check_engines_version v (some c) = some (r.matches ver) := by
  simp only [check_engines_version, hr, ht, hver]

/-- A positive probe means the first scan matched and the `esy.lock`
scan did not. -/
theorem nodejs_probe_split (d : Dir) (h : nodejs_probe d = true) :
    is_js_project d = true ∧ is_esy_project d = false := by
  simp only [nodejs_probe, Bool.and_eq_true, Bool.not_eq_true'] at h
  exact h

/-- Rendering a template that contains a placeholder the resolver does
not recognize fails with an error. -/
theorem renderTokens_error_of_bad (resolve : String → Option String)
    (n : String) (hn : resolve n = none) :
    ∀ ts : List FmtToken, FmtToken.var n ∈ ts →
      ∃ msg, renderTokens resolve ts = Except.error msg := by
  intro ts
  induction ts with
  | nil => intro h; cases h
  | cons t rest ih =>
    intro hmem
    cases t with
    | lit s =>
      have hrest : FmtToken.var n ∈ rest := by
        cases hmem with
        | tail _ h => exact h
      obtain ⟨msg, hmsg⟩ := ih hrest
      exact ⟨msg, by simp [renderTokens, hmsg]⟩
    | var m =>
      cases hr : resolve m with
      | none => exact ⟨"Unrecognized placeholder: " ++ m, by simp [renderTokens, hr]⟩
      | some val =>
        have hrest : FmtToken.var n ∈ rest := by
          cases hmem with
          | head => rw [hn] at hr; cases hr
          | tail _ h => exact h
        obtain ⟨msg, hmsg⟩ := ih hrest
        exact ⟨msg, by simp [renderTokens, hr, hmsg]⟩

/-! ## Claim theorems -/

/-- Claim C1: `check_engines_version` is fail-open.  It returns `true`
when the declared constraint is absent and when the constraint fails to
parse; when the constraint is present and parses and the detected
version is extracted, it returns `true` exactly when the constraint is
satisfied and `false` exactly when it is violated. -/
theorem check_engines_version_fail_open (v c : String) :
    check_engines_version v none = some true
    ∧ (VersionReq.parse c = none → check_engines_version v (some c) = some true)
    ∧ (∀ (r : VersionReq) (t : String) (ver : Version),
        VersionReq.parse c = some r → findTriple v = some t →
        Version.parse t = some ver →
        ((check_engines_version v (some c) = some true ↔ r.matches ver = true)
          ∧ (check_engines_version v (some c) = some false ↔ r.matches ver = false))) := by
  refine ⟨rfl, ?_, ?_⟩
  · intro h
    simp [check_engines_version, h]
  · intro r t ver hr ht hver
    rw [check_engines_eval v c r t ver hr ht hver]
    cases r.matches ver with
    | false => simp
    | true => simp

/-- Witness for C1 at a malformed constraint: a nonsense range string
fails open. -/
theorem check_engines_version_fail_open_witness :
    check_engines_version "v12.0.0" (some "not a constraint") = some true :=
  (check_engines_version_fail_open "v12.0.0" "not a constraint").2.1 (by decide)

/-- Claim C3: when the runtime version string contains a
`\d+\.\d+\.\d+` substring, `check_engines_version` never panics; when in
addition the constraint parses, it evaluates the parsed constraint
against the first extracted triple (whose strict parse always
succeeds). -/
theorem check_engines_version_total (v t : String) (h : findTriple v = some t) :
    (∀ ev : Option String, check_engines_version v ev ≠ none)
    ∧ (∀ (c : String) (r : VersionReq), VersionReq.parse c = some r →
        ∃ ver : Version, Version.parse t = some ver ∧
          check_engines_version v (some c) = some (r.matches ver)) := by
  obtain ⟨ver, hver⟩ := findTriple_versionOk v t h
  constructor
  · intro ev
    match ev with
    | none => simp [check_engines_version]
    | some c =>
      cases hr : VersionReq.parse c with
      | none => simp [check_engines_version, hr]
      | some r =>
        rw [check_engines_eval v c r t ver hr h hver]
        simp
  · intro c r hr
    exact ⟨ver, hver, check_engines_eval v c r t ver hr h hver⟩

/-- Witness for C3 at `v12.0.0`: no constraint value can make the check
panic. -/
theorem check_engines_version_total_witness :
    check_engines_version "v12.0.0" (some ">=12.0.0") ≠ none :=
  (check_engines_version_total "v12.0.0" "12.0.0" (by decide)).1 (some ">=12.0.0")

/-- Claim C10: the version string is inspected only after a constraint
is present and parses.  With an absent constraint the result is `true`;
with an unparseable constraint the result is `true` and independent of
the version string; a panic (`none`) is only reachable when the
constraint parses and the version string has no digit triple. -/
theorem check_engines_version_lazy (v w c : String) :
    check_engines_version v none = some true
    ∧ (VersionReq.parse c = none →
        check_engines_version v (some c) = some true
        ∧ check_engines_version v (some c) = check_engines_version w (some c))
    ∧ (check_engines_version v (some c) = none →
        ∃ r : VersionReq, VersionReq.parse c = some r ∧ findTriple v = none) := by
  refine ⟨rfl, ?_, ?_⟩
  · intro h
    constructor
    · simp [check_engines_version, h]
    · simp [check_engines_version, h]
  · intro h
    cases hr : VersionReq.parse c with
    | none => simp [check_engines_version, hr] at h
    | some r =>
      refine ⟨r, rfl, ?_⟩
      cases ht : findTriple v with
      | none => rfl
      | some t =>
        obtain ⟨ver, hver⟩ := findTriple_versionOk v t ht
        rw [check_engines_eval v c r t ver hr ht hver] at h
        cases h

/-- Witness for C10: a digit-free version string with an unparseable
constraint still returns `true` (the version string is never examined). -/
theorem check_engines_version_lazy_witness :
    check_engines_version "no digits here" (some "???") = some true
    ∧ check_engines_version "no digits here" (some "???")
        = check_engines_version "v12.0.0" (some "???") :=
  (check_engines_version_lazy "no digits here" "v12.0.0" "???").2.1 (by decide)

/-- Claim C6 counterexample: `"0.0.1 12.0.0"` embeds the triple
`12.0.0`, yet the check extracts the *first* triple `0.0.1`, so
`>=12.0.0` evaluates to `false` and `<12.0.0` to `true` — the opposite
of the claim. -/
theorem embedded_triple_counterexample :
    hasSubstring "0.0.1 12.0.0" "12.0.0" = true
    ∧ findTriple "0.0.1 12.0.0" = some "0.0.1"
    ∧ check_engines_version "0.0.1 12.0.0" (some ">=12.0.0") = some false
    ∧ check_engines_version "0.0.1 12.0.0" (some "<12.0.0") = some true := by
  refine ⟨by decide, by decide, by decide, by decide⟩

/-- Claim C6 (amended): for every version string whose *first* embedded
`\d+\.\d+\.\d+` triple is `12.0.0`, the check with constraint
`>=12.0.0` returns `true` and with `<12.0.0` returns `false`. -/
theorem first_triple_twelve (v : String) (h : findTriple v = some "12.0.0") :
    check_engines_version v (some ">=12.0.0") = some true
    ∧ check_engines_version v (some "<12.0.0") = some false := by
  have hver : Version.parse "12.0.0" = some ⟨12, 0, 0⟩ := by decide
  have hge : VersionReq.parse ">=12.0.0"
      = some ⟨[⟨ReqOp.ge, 12, some 0, some 0⟩]⟩ := by decide
  have hlt : VersionReq.parse "<12.0.0"
      = some ⟨[⟨ReqOp.lt, 12, some 0, some 0⟩]⟩ := by decide
  constructor
  · rw [check_engines_eval v _ _ _ _ hge h hver]
    decide
  · rw [check_engines_eval v _ _ _ _ hlt h hver]
    decide

/-- Witness for the amended C6 at the runtime output `v12.0.0`. -/
theorem first_triple_twelve_witness :
    check_engines_version "v12.0.0" (some ">=12.0.0") = some true
    ∧ check_engines_version "v12.0.0" (some "<12.0.0") = some false :=
  first_triple_twelve "v12.0.0" (by decide)

/-- Claim C7 counterexample: on a version string with no digit triple,
a wildcard or empty constraint parses, so the check reaches the
extraction `unwrap` and panics instead of returning `true`. -/
theorem wildcard_empty_counterexample :
    check_engines_version "abc" (some "*") = none
    ∧ check_engines_version "abc" (some "") = none
    ∧ ¬check_engines_version "abc" (some "*") = some true
    ∧ ¬check_engines_version "abc" (some "") = some true := by
  refine ⟨by decide, by decide, by decide, by decide⟩

/-- Claim C7 (amended): for every version string containing a
`\d+\.\d+\.\d+` substring, a bare wildcard constraint and an empty
constraint string both yield `true`. -/
theorem wildcard_empty_match (v t : String) (h : findTriple v = some t) :
    check_engines_version v (some "*") = some true
    ∧ check_engines_version v (some "") = some true := by
  obtain ⟨ver, hver⟩ := findTriple_versionOk v t h
  have hw : VersionReq.parse "*" = some ⟨[⟨ReqOp.wildcard, 0, none, none⟩]⟩ := by
    decide
  have he : VersionReq.parse "" = some ⟨[]⟩ := by decide
  constructor
  · rw [check_engines_eval v _ _ _ _ hw h hver]
    simp [VersionReq.matches, compMatches]
  · rw [check_engines_eval v _ _ _ _ he h hver]
    simp [VersionReq.matches]

/-- Witness for the amended C7 at `v12.0.0`. -/
theorem wildcard_empty_match_witness :
    check_engines_version "v12.0.0" (some "*") = some true
    ∧ check_engines_version "v12.0.0" (some "") = some true :=
  wildcard_empty_match "v12.0.0" "12.0.0" (by decide)

/-- Claim C2: an `esy.lock` subdirectory forces the relevance probe to
`false` and the module to produce nothing, regardless of every other
input — marker files, extensions, folders, command output, manifest and
configuration. -/
theorem esy_lock_exclusion (d : Dir) (h : d.folders.contains "esy.lock" = true) :
    nodejs_probe d = false
    ∧ is_esy_project d = true
    ∧ ∀ (from_str : String → Option Json) (read_file : String → Option String)
        (exec_node_version : Option String) (cd : String) (cfg : NodejsConfig),
        module from_str read_file exec_node_version d cd cfg
          = ModuleResult.noSegment := by
  have hm : "esy.lock" ∈ d.folders := by simpa using h
  have hesy : is_esy_project d = true := by
    simp [is_esy_project, scanIsMatch, hm]
  refine ⟨by simp [nodejs_probe, hesy], hesy, ?_⟩
  intro fs rf ex cd cfg
  simp [module, hesy]

/-- Witness for C2: a directory with both `package.json` and an
`esy.lock` folder yields no segment. -/
theorem esy_lock_exclusion_witness :
    module (fun _ => none) (fun _ => none) (some "v12.0.0")
      ⟨["package.json"], ["esy.lock"]⟩ "" ⟨[], "", "", ""⟩
      = ModuleResult.noSegment :=
  (esy_lock_exclusion ⟨["package.json"], ["esy.lock"]⟩ (by decide)).2.2
    (fun _ => none) (fun _ => none) (some "v12.0.0") "" ⟨[], "", "", ""⟩

/-- Claim C5: a directory with none of the marker file names, none of
the configured extensions on its files, and neither of the folder names
makes the probe negative and the module produce nothing, for every
command outcome, manifest and configuration. -/
theorem no_markers_no_segment (d : Dir)
    (hf1 : d.files.contains "package.json" = false)
    (hf2 : d.files.contains ".node-version" = false)
    (hext : ∀ f ∈ d.files, ∀ e, fileExtension f = some e →
      (["js", "mjs", "cjs", "ts"] : List String).contains e = false)
    (hfold : d.folders.contains "node_modules" = false)
    (_hesy : d.folders.contains "esy.lock" = false) :
    nodejs_probe d = false
    ∧ is_js_project d = false
    ∧ ∀ (from_str : String → Option Json) (read_file : String → Option String)
        (exec_node_version : Option String) (cd : String) (cfg : NodejsConfig),
        module from_str read_file exec_node_version d cd cfg
          = ModuleResult.noSegment := by
  have hB : (d.files.any (fun f =>
      match fileExtension f with
      | some e => (["js", "mjs", "cjs", "ts"] : List String).contains e
      | none => false)) = false := by
    rw [List.any_eq_false]
    intro f hf
    cases hfe : fileExtension f with
    | none => simp [hfe]
    | some e => simpa using hext f hf e hfe
  have hjs : is_js_project d = false := by
    simp only [is_js_project, scanIsMatch, List.any_cons, List.any_nil, hf1, hf2,
      hfold, hB, Bool.or_false, Bool.false_or]
  refine ⟨by simp [nodejs_probe, hjs], hjs, ?_⟩
  intro fs rf ex cd cfg
  simp [module, hjs]

/-- Witness for C5: the empty directory yields no segment (scenario A
of the spec). -/
theorem no_markers_no_segment_witness :
    module (fun _ => none) (fun _ => none) (some "v12.0.0") ⟨[], []⟩ ""
      ⟨[], "", "", ""⟩ = ModuleResult.noSegment :=
  (no_markers_no_segment ⟨[], []⟩ (by decide) (by decide)
    (by intro f hf e hfe; cases hf) (by decide) (by decide)).2.2
    (fun _ => none) (fun _ => none) (some "v12.0.0") "" ⟨[], "", "", ""⟩

/-- Claim C4: a format template holding a placeholder outside
{symbol, style, version} makes every render fail with a format error —
no partial output — and makes the module report that error (which the
caller logs and turns into an absent segment) whenever rendering is
reached. -/
theorem unknown_placeholder_fails (n : String) (cfg : NodejsConfig)
    (hmem : FmtToken.var n ∈ cfg.format)
    (hs : n ≠ "symbol") (hst : n ≠ "style") (hv : n ≠ "version") :
    (∀ (in_range : Bool) (version : String), ∃ msg,
        renderTokens (resolveVar cfg.symbol cfg.style cfg.not_capable_style
          in_range version) cfg.format = Except.error msg)
    ∧ ∀ (from_str : String → Option Json) (read_file : String → Option String)
        (v : String) (d : Dir) (cd : String),
        nodejs_probe d = true →
        check_engines_version v (get_engines_version from_str read_file cd) ≠ none →
        ∃ msg, module from_str read_file (some v) d cd cfg
          = ModuleResult.formatError msg := by
  have hres : ∀ (sym sty nsty : String) (ir : Bool) (ver : String),
      resolveVar sym sty nsty ir ver n = none := by
    intro sym sty nsty ir ver
    simp [resolveVar, hs, hst, hv]
  constructor
  · intro ir ver
    exact renderTokens_error_of_bad _ n (hres _ _ _ _ _) cfg.format hmem
  · intro fs rf v d cd hd hck
    obtain ⟨hjs, hesy⟩ := nodejs_probe_split d hd
    obtain ⟨b, hb⟩ : ∃ b, check_engines_version v (get_engines_version fs rf cd)
        = some b := by
      cases hc : check_engines_version v (get_engines_version fs rf cd) with
      | none => exact absurd hc hck
      | some b => exact ⟨b, rfl⟩
    obtain ⟨msg, hmsg⟩ := renderTokens_error_of_bad
      (resolveVar cfg.symbol cfg.style cfg.not_capable_style b v) n
      (hres _ _ _ _ _) cfg.format hmem
    exact ⟨msg, by simp [module, hjs, hesy, hb, hmsg]⟩

/-- Witness for C4: a template consisting of the placeholder `bogus`
produces a format error. -/
theorem unknown_placeholder_fails_witness :
    ∃ msg, module (fun _ => none) (fun _ => none) (some "v12.0.0")
      ⟨["package.json"], []⟩ "" ⟨[FmtToken.var "bogus"], "s", "g", "r"⟩
      = ModuleResult.formatError msg :=
  (unknown_placeholder_fails "bogus" ⟨[FmtToken.var "bogus"], "s", "g", "r"⟩
    (by decide) (by decide) (by decide) (by decide)).2
    (fun _ => none) (fun _ => none) "v12.0.0" ⟨["package.json"], []⟩ ""
    (by decide) (by decide)

/-- Claim C8: the captured runtime version string is stored and passed
around untrimmed — `module` hands the raw command output to the
compatibility check — and the `version` placeholder is bound to the
trimmed string, so trimming happens only at render time.  Rendering the
template that consists of just the `version` placeholder therefore
produces exactly the trimmed captured string, whatever surrounding
whitespace it carried. -/
theorem version_trimmed_at_render (s sym sty nsty : String) (in_range : Bool) :
    resolveVar sym sty nsty in_range s "version" = some (strTrim s)
    ∧ ∀ (from_str : String → Option Json) (read_file : String → Option String)
        (d : Dir) (cd : String) (b : Bool),
        nodejs_probe d = true →
        check_engines_version s (get_engines_version from_str read_file cd) = some b →
        module from_str read_file (some s) d cd
          ⟨[FmtToken.var "version"], sym, sty, nsty⟩
          = ModuleResult.rendered (strTrim s) := by
  constructor
  · rfl
  · intro fs rf d cd b hd hb
    obtain ⟨hjs, hesy⟩ := nodejs_probe_split d hd
    simp [module, hjs, hesy, hb, renderTokens, resolveVar]

/-- Witness for C8: output wrapped in whitespace renders trimmed. -/
theorem version_trimmed_at_render_witness :
    module (fun _ => none) (fun _ => none) (some " v12.0.0\n")
      ⟨["package.json"], []⟩ "" ⟨[FmtToken.var "version"], "⬢", "green", "red"⟩
      = ModuleResult.rendered (strTrim " v12.0.0\n") :=
  (version_trimmed_at_render " v12.0.0\n" "⬢" "green" "red" true).2
    (fun _ => none) (fun _ => none) ⟨["package.json"], []⟩ "" true
    (by decide) (by decide)

/-- Claim C9: `get_engines_version` returns `some s` exactly when the
manifest read succeeds, the text parses as JSON, the parsed value has an
`engines` field with a `node` field, and that field is the string `s`;
it is a total function, so every failure yields `none` rather than an
error. -/
theorem get_engines_version_characterization (from_str : String → Option Json)
    (read_file : String → Option String) (dir s : String) :
    get_engines_version from_str read_file dir = some s ↔
      ∃ (txt : String) (j engines node : Json),
        read_file (dir ++ "/package.json") = some txt
        ∧ from_str txt = some j
        ∧ j.get "engines" = some engines
        ∧ engines.get "node" = some node
        ∧ node.as_str = some s := by
  constructor
  · intro h
    unfold get_engines_version at h
    cases h1 : read_file (dir ++ "/package.json") with
    | none => simp [h1] at h
    | some txt =>
      simp only [h1] at h
      cases h2 : from_str txt with
      | none => simp [h2] at h
      | some j =>
        simp only [h2] at h
        cases h3 : j.get "engines" with
        | none => simp [h3] at h
        | some engines =>
          simp only [h3] at h
          cases h4 : engines.get "node" with
          | none => simp [h4] at h
          | some node =>
            simp only [h4] at h
            exact ⟨txt, j, engines, node, rfl, h2, h3, h4, h⟩
  · intro h
    obtain ⟨txt, j, engines, node, h1, h2, h3, h4, h5⟩ := h
    unfold get_engines_version
    simp only [h1, h2, h3, h4]
    exact h5

/-- Witness for C9: a manifest with `engines.node = ">=12.0.0"` yields
that string. -/
theorem get_engines_version_characterization_witness :
    get_engines_version
      (fun _ => some (Json.obj [("engines", Json.obj [("node", Json.str ">=12.0.0")])]))
      (fun _ => some "manifest text") "/proj" = some ">=12.0.0" :=
  (get_engines_version_characterization
      (fun _ => some (Json.obj [("engines", Json.obj [("node", Json.str ">=12.0.0")])]))
      (fun _ => some "manifest text") "/proj" ">=12.0.0").mpr
    ⟨"manifest text", Json.obj [("engines", Json.obj [("node", Json.str ">=12.0.0")])],
      Json.obj [("node", Json.str ">=12.0.0")], Json.str ">=12.0.0",
      rfl, rfl, rfl, rfl, rfl⟩

end NodejsModule
